import Mathlib

/-!
# Shallow embedding of the `pinocchio_flash_loan` program

This file embeds, in Lean, the flash-loan issuance and repayment engine of
the repository (`src/pinnochio/pinocchio_flash_loan/src/instructions/
{helpers.rs, loan.rs, repay.rs}`) and proves the specification claims about
it.

Machine integers are modelled as `Nat` with explicit `2^64` bounds where the
Rust code uses checked `u64` arithmetic; byte buffers are `List Nat` (each
byte a value `< 256` where it matters); fallible Rust code returning
`Result<_, ProgramError>` becomes `Except Err _`.  Unchecked (`unsafe`)
pointer reads in the source are modelled by `Option`-returning reads whose
`none` case surfaces as the dedicated error `Err.ubRead`: it marks a place
where the source would read out of bounds.
-/

/-- A 32-byte account identifier (public key). -/
abbrev Pubkey := List Nat

/-- A raw byte buffer (account data / instruction payload). -/
abbrev Bytes := List Nat

/-- Little-endian decoding of a byte list: `leDecode [b0, b1, ...] =
b0 + 256*b1 + ...`, mirroring `u64::from_le_bytes` /
`u16::from_le_bytes` and the raw-pointer casts in the source. -/
def leDecode : Bytes → Nat
  | [] => 0
  | b :: rest => b + 256 * leDecode rest

/-- Little-endian encoding of `x` into `w` bytes (base-256 digits); encodes
`x % 256^w`, matching how a `u64` store writes exactly 8 bytes. -/
def leBytes : Nat → Nat → Bytes
  | 0, _ => []
  | w + 1, x => x % 256 :: leBytes w (x / 256)

theorem length_leBytes (w x : Nat) : (leBytes w x).length = w := by
  induction w generalizing x with
  | zero => rfl
  | succ w ih => simp [leBytes, ih]

theorem leDecode_leBytes (w x : Nat) : leDecode (leBytes w x) = x % 256 ^ w := by
  induction w generalizing x with
  | zero => simp [leBytes, leDecode, Nat.mod_one]
  | succ w ih =>
    simp only [leBytes, leDecode, ih]
    rw [Nat.pow_succ, Nat.mul_comm (256 ^ w) 256, Nat.mod_mul]

/-- Errors returned by the embedded program.  Each constructor corresponds
to one `return Err(...)` site of the source (several collapse to the same
`ProgramError` value there; the names follow the spec's error vocabulary):
* `notEnoughAccountKeys` — `ProgramError::NotEnoughAccountKeys`;
* `unsupportedIntrospectionSource` — `ProgramError::UnsupportedSysvar`
  (loan.rs line 24);
* `oddTokenAccountList` — `InvalidAccountData` (loan.rs line 28, odd or
  empty asset-account tail);
* `ledgerNotEmpty` — `InvalidAccountData` (loan.rs line 32);
* `invalidInstructionData` — payload parse failures (loan.rs lines 55–60);
* `arityMismatch` — `InvalidInstructionData` (loan.rs line 86) and
  `InvalidAccountData` (repay.rs line 29);
* `feeOverflow` — `InvalidInstructionData` (loan.rs lines 136–137);
* `missingOrInvalidRepay` — `InvalidInstructionData` (loan.rs lines
  157/161/165);
* `outOfOrderOrWrongAccount` — `InvalidAccountData` (repay.rs line 38);
* `insufficientRepayment` — `InvalidAccountData` (repay.rs line 49);
* `insufficientFunds` — failure of the external token transfer;
* `missingAccount` — the external transfer was handed a key with no
  account behind it;
* `instructionLoadFailed` — `load_instruction_at` failed;
* `indexOutOfBounds` — a slice index that would panic in the source;
* `ubRead` — an unchecked out-of-bounds pointer read in the source
  (undefined behaviour there, an explicit error here). -/
inductive Err where
  | notEnoughAccountKeys
  | unsupportedIntrospectionSource
  | oddTokenAccountList
  | ledgerNotEmpty
  | invalidInstructionData
  | arityMismatch
  | feeOverflow
  | missingOrInvalidRepay
  | outOfOrderOrWrongAccount
  | insufficientRepayment
  | insufficientFunds
  | missingAccount
  | instructionLoadFailed
  | indexOutOfBounds
  | ubRead
deriving Repr, DecidableEq

/-- An account as the program sees it: identifier, balance of the native
unit, and raw data bytes (mirrors the used fields of `AccountInfo`). -/
structure AccountData where
  key : Pubkey
  lamports : Nat
  data : Bytes
deriving Repr, DecidableEq

/-- Read `n` consecutive bytes from the front of a buffer, `none` if the
buffer runs out: the bounds-checked counterpart of a raw `n`-byte pointer
read. -/
def readBytes? (l : Bytes) : Nat → Option Bytes
  | 0 => some []
  | n + 1 =>
    match l with
    | [] => none
    | b :: rest => (readBytes? rest n).map (b :: ·)

/-- `get_token_amount` (helpers.rs lines 7–9): read the little-endian `u64`
at byte offset 64 of a token account's data.  The source dereferences
`data.as_ptr().add(64)` with no bounds check; here the 8 bytes at offset
64 are fetched with `readBytes?`, so a buffer shorter than 72 bytes yields
`none` where the source would read out of bounds. -/
def get_token_amount? (data : Bytes) : Option Nat :=
  (readBytes? (data.drop 64) 8).map leDecode

/-- `LoanData` (helpers.rs lines 1–5): one ledger record, `#[repr(C,
packed)]`, 32-byte protocol token-account key followed by a `u64`
obligation — 40 bytes, no padding. -/
structure LoanData where
  protocol_token_account : Pubkey
  balance : Nat
deriving Repr, DecidableEq

/-- `size_of::<LoanData>()`: 32 + 8 bytes, no padding (`repr(C, packed)`). -/
def loanDataSize : Nat := 40

/-- The byte image of a ledger: the source writes `LoanData` records through
a pointer cast into the account buffer, i.e. record `i` occupies bytes
`[40*i, 40*i+40)` as `[key (32 bytes)][obligation (u64 LE)]`, no header. -/
def serializeEntries : List LoanData → Bytes
  | [] => []
  | e :: es => e.protocol_token_account ++ leBytes 8 e.balance ++ serializeEntries es

/-- Repay's read of entry `i`'s key (repay.rs line 35): the 32 bytes at
offset `i * 40` of the ledger data. -/
def readEntryId (ledger : Bytes) (i : Nat) : Bytes :=
  (ledger.drop (loanDataSize * i)).take 32

/-- Repay's read of entry `i`'s obligation (repay.rs lines 42–46): the
little-endian `u64` at offset `i * 40 + 32` of the ledger data. -/
def readEntryOb (ledger : Bytes) (i : Nat) : Nat :=
  leDecode ((ledger.drop (loanDataSize * i + 32)).take 8)

/-- The per-entry loop of `Repay::process` (repay.rs lines 32–51), checking
entries in increasing positional order: entry `i`'s stored key must equal
the `i`-th supplied token account's key (else `outOfOrderOrWrongAccount`),
and that account's current balance must reach the stored obligation (else
`insufficientRepayment`); the first failure aborts. -/
def repayLoop (ledger : Bytes) : Nat → List AccountData → Except Err Unit
  | _, [] => .ok ()
  | i, t :: ts =>
    if readEntryId ledger i ≠ t.key then
      .error .outOfOrderOrWrongAccount
    else
      match get_token_amount? t.data with
      | none => .error .ubRead
      | some balance =>
        if balance < readEntryOb ledger i then
          .error .insufficientRepayment
        else
          repayLoop ledger (i + 1) ts

/-- The account state `Repay::process` leaves behind on success (repay.rs
lines 53–59): the borrower's lamports, the ledger account's lamports, the
ledger account's data, and whether the ledger account was closed. -/
structure RepayOutcome where
  borrowerLamports : Nat
  loanLamports : Nat
  loanData : Bytes
  loanClosed : Bool
deriving Repr, DecidableEq

/-- `Repay::process` (repay.rs lines 24–62): derive the entry count as
`ledger size / 40` (truncating division, as in the source), require it to
equal the number of supplied token accounts, run the per-entry checks, and
only then move all of the ledger account's lamports to the borrower and
close the ledger account. -/
def repayProcess (borrowerLamports loanLamports : Nat) (ledger : Bytes)
    (toks : List AccountData) : Except Err RepayOutcome :=
  let loanNum := ledger.length / loanDataSize
  if loanNum ≠ toks.length then
    .error .arityMismatch
  else
    match repayLoop ledger 0 toks with
    | .error e => .error e
    | .ok _ =>
      .ok { borrowerLamports := borrowerLamports + loanLamports
            loanLamports := 0
            loanData := []
            loanClosed := true }

/-- `RepayAccounts::try_from` (repay.rs lines 71–85): borrower, ledger,
then the (possibly empty) tail of protocol-side token accounts. -/
structure RepayAccounts where
  borrower : AccountData
  loan : AccountData
  token_accounts : List AccountData
deriving Repr, DecidableEq

/-- `RepayAccounts::try_from` as a function on the raw account list. -/
def repayAccountsTryFrom (accounts : List AccountData) : Except Err RepayAccounts :=
  match accounts with
  | borrower :: loan :: token_accounts =>
    .ok { borrower := borrower, loan := loan, token_accounts := token_accounts }
  | _ => .error .notEnoughAccountKeys

/-- The whole `Repay` instruction: parse the account list
(`Repay::try_from`, repay.rs lines 11–19) then run `Repay::process`. -/
def repayRun (accounts : List AccountData) : Except Err RepayOutcome := do
  let r ← repayAccountsTryFrom accounts
  repayProcess r.borrower.lamports r.loan.lamports r.loan.data r.token_accounts

/-- `u64::checked_mul`: `none` exactly when the product does not fit in 64
bits. -/
def checkedMulU64 (a b : Nat) : Option Nat :=
  if a * b < 2 ^ 64 then some (a * b) else none

/-- `u64::checked_add`: `none` exactly when the sum does not fit in 64
bits. -/
def checkedAddU64 (a b : Nat) : Option Nat :=
  if a + b < 2 ^ 64 then some (a + b) else none

/-- Overwrite the token balance stored at bytes 64–71 of a token account's
data (little-endian `u64`). -/
def setTokenAmount (data : Bytes) (v : Nat) : Bytes :=
  data.take 64 ++ leBytes 8 v ++ data.drop 72

/-- Modelled from the spec: the external value-transfer primitive
(`pinocchio_token::instructions::Transfer`, §6 of the spec), whose source
is not part of this repository.  Per the spec's contract it "fails only if
source balance is insufficient or authority is invalid"; authority is the
program-derived signer here, so the model fails exactly on insufficient
source balance (plus explicit errors for a key with no account behind it
or a buffer too short to hold a balance).  All positions holding the same
key denote the same underlying account, so the update is applied
key-wise. -/
def tokenTransfer (toks : List AccountData) (src dst : Pubkey) (amount : Nat) :
    Except Err (List AccountData) :=
  match toks.find? (fun t => t.key = src) with
  | none => .error .missingAccount
  | some s =>
    match get_token_amount? s.data with
    | none => .error .ubRead
    | some sb =>
      if sb < amount then .error .insufficientFunds
      else
        match (toks.map (fun t =>
            if t.key = src then { t with data := setTokenAmount t.data (sb - amount) } else t)).find?
            (fun t => t.key = dst) with
        | none => .error .missingAccount
        | some d =>
          match get_token_amount? d.data with
          | none => .error .ubRead
          | some db =>
            .ok ((toks.map (fun t =>
              if t.key = src then { t with data := setTokenAmount t.data (sb - amount) } else t)).map
              (fun t =>
                if t.key = dst then { t with data := setTokenAmount t.data (db + amount) } else t))

/-- One iteration of the loop of `Loan::process` (loan.rs lines 128–150)
at index `i`: read the protocol-side account at position `2*i` and the
borrower-side account at position `2*i + 1`, read the protocol account's
current balance, compute
`obligation = balance + amount * fee / 10000` with checked `u64`
arithmetic (`feeOverflow` on overflow; the division by the constant
10000 cannot fail), record the entry, then transfer `amount` from the
protocol-side to the borrower-side account. -/
def loanStep (fee : Nat) (toks : List AccountData) (i amount : Nat) :
    Except Err (List AccountData × LoanData) :=
  match toks[2 * i]?, toks[2 * i + 1]? with
  | some p, some b =>
    match get_token_amount? p.data with
    | none => .error .ubRead
    | some balance =>
      match checkedMulU64 amount fee with
      | none => .error .feeOverflow
      | some mf =>
        match checkedAddU64 balance (mf / 10000) with
        | none => .error .feeOverflow
        | some ob =>
          match tokenTransfer toks p.key b.key amount with
          | .error e => .error e
          | .ok toks' => .ok (toks', { protocol_token_account := p.key, balance := ob })
  | _, _ => .error .indexOutOfBounds

/-- The full loop of `Loan::process` over the amounts, starting at index
`i`; returns the final token-account state and the recorded ledger
entries in order. -/
def loanLoop (fee : Nat) (toks : List AccountData) : List Nat → Nat →
    Except Err (List AccountData × List LoanData)
  | [], _ => .ok (toks, [])
  | a :: rest, i =>
    match loanStep fee toks i a with
    | .error e => .error e
    | .ok (t', e) =>
      match loanLoop fee t' rest (i + 1) with
      | .error e2 => .error e2
      | .ok (t2, es) => .ok (t2, e :: es)

/-- One instruction of the enclosing transaction, as reconstructed from the
introspection sysvar's raw bytes: target program, payload, and the keys of
its account metas. -/
structure IntrospectedInstruction where
  program_id : Pubkey
  data : Bytes
  account_keys : List Pubkey
deriving Repr, DecidableEq

/-- `Loan::DISCRIMINATOR` (loan.rs line 97). -/
def loanDiscriminator : Nat := 0

/-- `Repay::DISCRIMINATOR` (repay.rs line 22). -/
def repayDiscriminator : Nat := 1

/-- The atomicity guard of `Loan::process` (loan.rs lines 152–166): load
the last instruction of the enclosing transaction and require that its
target program is this program, its first payload byte is the `Repay`
discriminator, and its account meta at position 1 (the fixed ledger
position of `Repay`'s account list) carries this ledger account's key.
The source reads the first payload byte and the account meta through
unchecked pointers; a missing byte/meta is `ubRead` here. -/
def introspectionGuard (progId loanKey : Pubkey) (ixs : List IntrospectedInstruction) :
    Except Err Unit :=
  match ixs.getLast? with
  | none => .error .instructionLoadFailed
  | some ix =>
    if ix.program_id ≠ progId then .error .missingOrInvalidRepay
    else
      match ix.data.head? with
      | none => .error .ubRead
      | some d0 =>
        if d0 ≠ repayDiscriminator then .error .missingOrInvalidRepay
        else
          match ix.account_keys[1]? with
          | none => .error .ubRead
          | some k =>
            if k ≠ loanKey then .error .missingOrInvalidRepay
            else .ok ()

/-- `LoanAccounts` (loan.rs lines 7–13). -/
structure LoanAccounts where
  borrower : AccountData
  protocol : AccountData
  loan : AccountData
  instruction_sysvar : AccountData
  token_accounts : List AccountData
deriving Repr, DecidableEq

/-- `LoanAccounts::try_from` (loan.rs lines 15–43), parametrised by the
runtime's introspection-sysvar id `INSTRUCTIONS_ID`: destructure the six
fixed leading accounts plus the token-account tail, require the sysvar
key to match, the tail to be even-length and non-empty, and the ledger
account to hold zero data bytes. -/
def loanAccountsTryFrom (instructionsId : Pubkey) (accounts : List AccountData) :
    Except Err LoanAccounts :=
  match accounts with
  | borrower :: protocol :: loan :: instruction_sysvar :: _tokenProgram :: _systemProgram ::
      token_accounts =>
    if instruction_sysvar.key ≠ instructionsId then
      .error .unsupportedIntrospectionSource
    else if token_accounts.length % 2 ≠ 0 ∨ token_accounts.length = 0 then
      .error .oddTokenAccountList
    else if loan.data.length ≠ 0 then
      .error .ledgerNotEmpty
    else
      .ok { borrower := borrower, protocol := protocol, loan := loan,
            instruction_sysvar := instruction_sysvar, token_accounts := token_accounts }
  | _ => .error .notEnoughAccountKeys

/-- `LoanInstructionData` (loan.rs lines 45–49): bump byte, `u16` fee in
basis points, and the borrowed amounts. -/
structure LoanInstructionData where
  bump : Nat
  fee : Nat
  amounts : List Nat
deriving Repr, DecidableEq

/-- Reinterpret a byte buffer as a sequence of little-endian `u64`s
(the `core::slice::from_raw_parts` cast of loan.rs lines 63–68); a
trailing fragment shorter than 8 bytes is unreachable after the
`len % 8 == 0` check. -/
def chunkLE64 : Bytes → List Nat
  | b0 :: b1 :: b2 :: b3 :: b4 :: b5 :: b6 :: b7 :: rest =>
    leDecode [b0, b1, b2, b3, b4, b5, b6, b7] :: chunkLE64 rest
  | _ => []

/-- `LoanInstructionData::try_from` (loan.rs lines 51–72): split off the
bump byte, then two little-endian fee bytes, then require the remainder
to divide evenly into 8-byte amounts. -/
def parseLoanInstructionData (data : Bytes) : Except Err LoanInstructionData :=
  match data with
  | bump :: f0 :: f1 :: tail =>
    if tail.length % 8 ≠ 0 then .error .invalidInstructionData
    else .ok { bump := bump, fee := leDecode [f0, f1], amounts := chunkLE64 tail }
  | _ => .error .invalidInstructionData

/-- `Loan` (loan.rs lines 73–76). -/
structure Loan where
  accounts : LoanAccounts
  instruction_data : LoanInstructionData
deriving Repr, DecidableEq

/-- `Loan::try_from` (loan.rs lines 78–94): parse the account list first,
then the payload, then require `amounts.length == token_accounts.length / 2`. -/
def loanTryFrom (instructionsId : Pubkey) (data : Bytes) (accounts : List AccountData) :
    Except Err Loan := do
  let accs ← loanAccountsTryFrom instructionsId accounts
  let idata ← parseLoanInstructionData data
  if idata.amounts.length ≠ accs.token_accounts.length / 2 then
    .error .arityMismatch
  else
    .ok { accounts := accs, instruction_data := idata }

/-- `Loan::process` (loan.rs lines 99–169): run the transfer/record loop
over all amounts, then the atomicity guard; on success return the final
token-account state and the ledger account's byte image (the source
writes the records in place through a pointer cast into the freshly
created 40·N-byte account).  The `CreateAccount` system call's rent
funding is not tracked: no claim concerns the ledger account's lamports
at creation. -/
def loanProcess (progId : Pubkey) (l : Loan) (ixs : List IntrospectedInstruction) :
    Except Err (List AccountData × Bytes) := do
  let (toks', es) ← loanLoop l.instruction_data.fee l.accounts.token_accounts
    l.instruction_data.amounts 0
  match introspectionGuard progId l.accounts.loan.key ixs with
  | .error e => .error e
  | .ok _ => .ok (toks', serializeEntries es)

/-- The whole `Loan` instruction: `Loan::try_from` then `Loan::process`.
Any parse error aborts before any transfer or account creation. -/
def loanRun (progId instructionsId : Pubkey) (data : Bytes) (accounts : List AccountData)
    (ixs : List IntrospectedInstruction) : Except Err (List AccountData × Bytes) := do
  let l ← loanTryFrom instructionsId data accounts
  loanProcess progId l ixs

theorem readBytes?_of_le (n : Nat) : ∀ l : Bytes, n ≤ l.length →
    readBytes? l n = some (l.take n) := by
  induction n with
  | zero => intro l _; simp [readBytes?]
  | succ n ih =>
    intro l h
    cases l with
    | nil => simp at h
    | cons b rest =>
      simp only [readBytes?, List.take_succ_cons, ih rest (by simpa using h)]
      rfl

theorem readBytes?_of_lt (n : Nat) : ∀ l : Bytes, l.length < n → readBytes? l n = none := by
  induction n with
  | zero => intro l h; omega
  | succ n ih =>
    intro l h
    cases l with
    | nil => rfl
    | cons b rest => simp [readBytes?, ih rest (by simpa using h)]

/-! ## Concrete fixtures used by witnesses and counterexamples -/

/-- A concrete 32-byte key (protocol-side asset account A). -/
def keyA : Pubkey := List.replicate 32 1

/-- A concrete 32-byte key (borrower-side asset account A). -/
def keyB : Pubkey := List.replicate 32 2

/-- A concrete 32-byte key (protocol-side asset account B). -/
def keyC : Pubkey := List.replicate 32 3

/-- A concrete 32-byte key (borrower-side asset account B). -/
def keyD : Pubkey := List.replicate 32 4

/-- A concrete 32-byte key for the borrower. -/
def keyBorrower : Pubkey := List.replicate 32 5

/-- A concrete 32-byte key for the ledger account. -/
def keyLedger : Pubkey := List.replicate 32 6

/-- A concrete 32-byte key for the protocol authority. -/
def keyProtocolAuth : Pubkey := List.replicate 32 7

/-- A concrete 32-byte key for the introspection sysvar. -/
def keySysvar : Pubkey := List.replicate 32 8

/-- A concrete 32-byte key for this program. -/
def keyProgram : Pubkey := List.replicate 32 9

/-- A 72-byte token-account data buffer whose balance field (bytes 64–71)
holds `bal`. -/
def tokData (bal : Nat) : Bytes := List.replicate 64 0 ++ leBytes 8 bal

/-- A valid `Loan` payload for one borrowed amount of 1 at fee 0. -/
def c9Payload : Bytes := 255 :: 0 :: 0 :: leBytes 8 1

/-- A `Loan` account list whose protocol-side token account has empty data
(shorter than the 72 bytes `get_token_amount` reads). -/
def c9LoanAccountList : List AccountData :=
  [⟨keyBorrower, 0, []⟩, ⟨keyProtocolAuth, 0, []⟩, ⟨keyLedger, 0, []⟩,
   ⟨keySysvar, 0, []⟩, ⟨List.replicate 32 10, 0, []⟩, ⟨List.replicate 32 11, 0, []⟩,
   ⟨keyA, 0, []⟩, ⟨keyB, 0, []⟩]

/-- A `Repay` account list whose supplied token account has empty data,
against a well-formed one-entry ledger. -/
def c9RepayAccountList : List AccountData :=
  [⟨keyBorrower, 5, []⟩, ⟨keyLedger, 2, keyA ++ leBytes 8 0⟩, ⟨keyA, 0, []⟩]

/-- C9: for every account-data slice of length at least 72,
`get_token_amount` returns the unsigned 64-bit little-endian integer at
byte offsets 64–71; the source performs no bounds check, so on any
shorter slice the `Option`-returning embedding yields `none`; and both
the `Loan` and the `Repay` processor reach this read with no length
precondition — concretely, each of them, run on otherwise-valid inputs
whose token account has empty data, fails with the out-of-bounds marker
`ubRead`. -/
theorem get_token_amount_oob_read :
    ∀ data : Bytes,
      (72 ≤ data.length →
        get_token_amount? data = some (leDecode ((data.drop 64).take 8))) ∧
      (data.length < 72 → get_token_amount? data = none) ∧
      loanRun keyProgram keySysvar c9Payload c9LoanAccountList [] = .error .ubRead ∧
      repayRun c9RepayAccountList = .error .ubRead := by
  intro data
  refine ⟨fun h => ?_, fun h => ?_, rfl, rfl⟩
  · unfold get_token_amount?
    rw [readBytes?_of_le 8 (data.drop 64) (by simp; omega)]
    rfl
  · unfold get_token_amount?
    rw [readBytes?_of_lt 8 (data.drop 64) (by simp; omega)]
    rfl

/-- Witness for `get_token_amount_oob_read`: the 72-byte buffer holding 5
decodes to balance 5, and a 71-byte buffer yields no value. -/
theorem get_token_amount_oob_read_witness :
    get_token_amount? (tokData 5) = some 5 ∧
    get_token_amount? (List.replicate 71 0) = none := by
  constructor
  · rw [(get_token_amount_oob_read (tokData 5)).1 (by decide)]; decide
  · exact (get_token_amount_oob_read (List.replicate 71 0)).2.1 (by decide)

/-- C10: a `Repay` whose ledger account has zero-length data and whose
supplied asset-account list is empty passes the arity check (`0 = 0`),
performs no obligation check, adds all of the ledger account's lamports
to the borrower's balance, and closes the ledger account. -/
theorem repay_empty_ledger_closes :
    ∀ (bk : Pubkey) (blam : Nat) (bdata : Bytes) (lk : Pubkey) (llam : Nat),
      repayRun [⟨bk, blam, bdata⟩, ⟨lk, llam, []⟩] = .ok ⟨blam + llam, 0, [], true⟩ := by
  intro bk blam bdata lk llam
  simp [repayRun, repayAccountsTryFrom, repayProcess, repayLoop, Bind.bind, Except.bind]

/-- A 41-byte ledger: one well-formed entry (`keyA`, obligation 5) followed
by one stray byte, so its length is not a multiple of 40. -/
def c5Ledger : Bytes := keyA ++ leBytes 8 5 ++ [9]

/-- C5 counterexample: the claim says every `Repay` whose ledger data
length is not an exact multiple of 40 is rejected, but `Repay::process`
computes `loan_num = len / 40` with truncating division and never checks
divisibility: on this 41-byte ledger with one matching, fully-funded
asset account the operation succeeds. -/
theorem repay_accepts_non_multiple_ledger :
    c5Ledger.length % 40 ≠ 0 ∧
    repayRun [⟨keyBorrower, 7, []⟩, ⟨keyLedger, 3, c5Ledger⟩, ⟨keyA, 0, tokData 5⟩] =
      .ok ⟨10, 0, [], true⟩ := by
  exact ⟨by decide, rfl⟩

/-- C5 as amended: `Repay` does not reject a ledger whose data length is
not an exact multiple of 40 (trailing remainder bytes are ignored); the
entry count used for the arity check equals `ledger_size / 40` rounded
down, and a count differing from the number of supplied asset accounts
fails with `ArityMismatch`. -/
theorem repay_arity_check :
    ∀ (bl ll : Nat) (ledger : Bytes) (toks : List AccountData),
      ledger.length / 40 ≠ toks.length →
      repayProcess bl ll ledger toks = .error .arityMismatch := by
  intro bl ll ledger toks h
  simp only [repayProcess, loanDataSize]
  rw [if_pos h]

/-- Witness for `repay_arity_check`: an empty ledger with one supplied
asset account mismatches (`0 ≠ 1`) and is rejected. -/
theorem repay_arity_check_witness :
    ([] : Bytes).length / 40 ≠ [(⟨keyA, 0, []⟩ : AccountData)].length ∧
    repayProcess 0 0 [] [⟨keyA, 0, []⟩] = .error .arityMismatch :=
  ⟨by decide, repay_arity_check 0 0 [] [⟨keyA, 0, []⟩] (by decide)⟩

theorem introspectionGuard_characterization (progId loanKey : Pubkey)
    (ixs : List IntrospectedInstruction) (ix : IntrospectedInstruction)
    (hlast : ixs.getLast? = some ix) (d0 : Nat) (k : Pubkey)
    (hd0 : ix.data.head? = some d0) (hk : ix.account_keys[1]? = some k) :
    (introspectionGuard progId loanKey ixs = .ok () ↔
      (ix.program_id = progId ∧ d0 = repayDiscriminator ∧ k = loanKey)) ∧
    (¬(ix.program_id = progId ∧ d0 = repayDiscriminator ∧ k = loanKey) →
      introspectionGuard progId loanKey ixs = .error .missingOrInvalidRepay) := by
  by_cases hp : ix.program_id = progId
  · by_cases hd : d0 = repayDiscriminator
    · by_cases hkk : k = loanKey
      · simp [introspectionGuard, hlast, hp, hd, hkk, hd0, hk]
      · simp [introspectionGuard, hlast, hp, hd, hkk, hd0, hk]
    · simp [introspectionGuard, hlast, hp, hd, hd0, hk]
  · simp [introspectionGuard, hlast, hp, hd0, hk]

/-- C2: after the transfer loop of a `Loan` succeeds, the processor
inspects the last instruction of the enclosing transaction and succeeds
exactly when that instruction targets this program, its first payload
byte is the `Repay` discriminator, and its account-list entry at the
fixed ledger position (index 1) is this ledger account's key; if any of
the three fails, the processor fails with `MissingOrInvalidRepay`. -/
theorem loan_repay_guard :
    ∀ (progId : Pubkey) (l : Loan) (ixs : List IntrospectedInstruction)
      (ix : IntrospectedInstruction) (r : List AccountData × List LoanData)
      (d0 : Nat) (k : Pubkey),
      loanLoop l.instruction_data.fee l.accounts.token_accounts
        l.instruction_data.amounts 0 = .ok r →
      ixs.getLast? = some ix →
      ix.data.head? = some d0 → ix.account_keys[1]? = some k →
      ((loanProcess progId l ixs = .ok (r.1, serializeEntries r.2) ↔
         (ix.program_id = progId ∧ d0 = repayDiscriminator ∧ k = l.accounts.loan.key)) ∧
       (¬(ix.program_id = progId ∧ d0 = repayDiscriminator ∧ k = l.accounts.loan.key) →
         loanProcess progId l ixs = .error .missingOrInvalidRepay)) := by
  intro progId l ixs ix r d0 k hloop hlast hd0 hk
  obtain ⟨toks', es⟩ := r
  have hchar := introspectionGuard_characterization progId l.accounts.loan.key ixs ix hlast
    d0 k hd0 hk
  constructor
  · constructor
    · intro hok
      by_contra hnot
      have herr := hchar.2 hnot
      simp [loanProcess, hloop, Bind.bind, Except.bind, herr] at hok
    · intro h3
      simp [loanProcess, hloop, Bind.bind, Except.bind, hchar.1.mpr h3]
  · intro hnot
    simp [loanProcess, hloop, Bind.bind, Except.bind, hchar.2 hnot]

/-- The concrete one-asset loan used to witness the guard theorem. -/
def c2Loan : Loan :=
  { accounts := { borrower := ⟨keyBorrower, 0, []⟩, protocol := ⟨keyProtocolAuth, 0, []⟩,
                  loan := ⟨keyLedger, 0, []⟩, instruction_sysvar := ⟨keySysvar, 0, []⟩,
                  token_accounts := [⟨keyA, 0, tokData 10000⟩, ⟨keyB, 0, tokData 0⟩] },
    instruction_data := { bump := 255, fee := 30, amounts := [1000] } }

/-- The matching final `Repay` instruction of the enclosing transaction:
targets the program, starts with the `Repay` discriminator, and names the
ledger at account position 1. -/
def c2Ix : IntrospectedInstruction :=
  { program_id := keyProgram, data := [1], account_keys := [keyBorrower, keyLedger, keyA] }

/-- The state and entries `c2Loan`'s transfer loop produces. -/
def c2LoopResult : List AccountData × List LoanData :=
  ((loanLoop 30 [⟨keyA, 0, tokData 10000⟩, ⟨keyB, 0, tokData 0⟩] [1000] 0).toOption.getD ([], []))

/-- Witness for `loan_repay_guard`: with the well-formed final `Repay`
above, the guard passes and the loan succeeds. -/
theorem loan_repay_guard_witness :
    loanProcess keyProgram c2Loan [c2Ix] = .ok (c2LoopResult.1, serializeEntries c2LoopResult.2) :=
  (loan_repay_guard keyProgram c2Loan [c2Ix] c2Ix c2LoopResult 1 keyLedger rfl rfl rfl rfl).1.mpr
    (by decide)

/-- C6: a `Loan` whose ledger account holds a non-zero number of data
bytes fails with `LedgerNotEmpty` for every payload whatsoever — the
account-list check runs before the payload is parsed — and, the whole
instruction being rejected at parse time, no transfer or account
creation occurs. -/
theorem loan_nonempty_ledger_rejected :
    ∀ (progId iid : Pubkey) (borrower protocol loan sysvar tp sp : AccountData)
      (toks : List AccountData) (data : Bytes) (ixs : List IntrospectedInstruction),
      sysvar.key = iid → toks.length % 2 = 0 → toks.length ≠ 0 →
      loan.data.length ≠ 0 →
      loanRun progId iid data (borrower :: protocol :: loan :: sysvar :: tp :: sp :: toks) ixs =
        .error .ledgerNotEmpty := by
  intro progId iid borrower protocol loan sysvar tp sp toks data ixs h1 h2 h3 h4
  simp [loanRun, loanTryFrom, loanAccountsTryFrom, h1, h2, h3, h4, Bind.bind, Except.bind]

/-- Witness for `loan_nonempty_ledger_rejected`: a one-byte ledger with an
empty (hence invalid) payload is rejected as `LedgerNotEmpty`. -/
theorem loan_nonempty_ledger_rejected_witness :
    loanRun keyProgram keySysvar []
      [⟨keyBorrower, 0, []⟩, ⟨keyProtocolAuth, 0, []⟩, ⟨keyLedger, 0, [0]⟩,
       ⟨keySysvar, 0, []⟩, ⟨List.replicate 32 10, 0, []⟩, ⟨List.replicate 32 11, 0, []⟩,
       ⟨keyA, 0, []⟩, ⟨keyB, 0, []⟩] [] = .error .ledgerNotEmpty :=
  loan_nonempty_ledger_rejected keyProgram keySysvar ⟨keyBorrower, 0, []⟩
    ⟨keyProtocolAuth, 0, []⟩ ⟨keyLedger, 0, [0]⟩ ⟨keySysvar, 0, []⟩
    ⟨List.replicate 32 10, 0, []⟩ ⟨List.replicate 32 11, 0, []⟩
    [⟨keyA, 0, []⟩, ⟨keyB, 0, []⟩] [] [] (by decide) (by decide) (by decide) (by decide)

/-- C7: a `Loan` whose parsed amount count differs from half the number of
trailing asset accounts is rejected as `ArityMismatch` by `Loan::try_from`
— still inside pure parsing, so before any transfer or other state
change. -/
theorem loan_amount_arity_rejected :
    ∀ (progId iid : Pubkey) (data : Bytes) (accounts : List AccountData)
      (accs : LoanAccounts) (idata : LoanInstructionData)
      (ixs : List IntrospectedInstruction),
      loanAccountsTryFrom iid accounts = .ok accs →
      parseLoanInstructionData data = .ok idata →
      idata.amounts.length ≠ accs.token_accounts.length / 2 →
      loanTryFrom iid data accounts = .error .arityMismatch ∧
      loanRun progId iid data accounts ixs = .error .arityMismatch := by
  intro progId iid data accounts accs idata ixs h1 h2 h3
  constructor
  · simp [loanTryFrom, h1, h2, h3, Bind.bind, Except.bind]
  · simp [loanRun, loanTryFrom, h1, h2, h3, Bind.bind, Except.bind]

/-- Witness for `loan_amount_arity_rejected`: two amounts against a single
asset-account pair is rejected as `ArityMismatch`. -/
theorem loan_amount_arity_rejected_witness :
    loanRun keyProgram keySysvar (255 :: 0 :: 0 :: (leBytes 8 1 ++ leBytes 8 1))
      c9LoanAccountList [] = .error .arityMismatch :=
  (loan_amount_arity_rejected keyProgram keySysvar
    (255 :: 0 :: 0 :: (leBytes 8 1 ++ leBytes 8 1)) c9LoanAccountList
    { borrower := ⟨keyBorrower, 0, []⟩, protocol := ⟨keyProtocolAuth, 0, []⟩,
      loan := ⟨keyLedger, 0, []⟩, instruction_sysvar := ⟨keySysvar, 0, []⟩,
      token_accounts := [⟨keyA, 0, []⟩, ⟨keyB, 0, []⟩] }
    { bump := 255, fee := 0, amounts := [1, 1] } [] rfl rfl (by decide)).2

theorem repayLoop_ok_iff (ledger : Bytes) :
    ∀ (toks : List AccountData) (i : Nat),
      repayLoop ledger i toks = .ok () ↔
      ∀ j t, toks[j]? = some t →
        readEntryId ledger (i + j) = t.key ∧
        ∃ b, get_token_amount? t.data = some b ∧ readEntryOb ledger (i + j) ≤ b := by
  intro toks
  induction toks with
  | nil => intro i; simp [repayLoop]
  | cons t ts ih =>
    intro i
    by_cases hid : readEntryId ledger i = t.key
    · cases hbal : get_token_amount? t.data with
      | none =>
        simp only [repayLoop, hid, ne_eq, not_true_eq_false, if_false, hbal]
        constructor
        · intro h; cases h
        · intro h
          obtain ⟨-, b, hb, -⟩ := h 0 t (by simp)
          simp [hbal] at hb
      | some b =>
        by_cases hlt : b < readEntryOb ledger i
        · simp only [repayLoop, hid, ne_eq, not_true_eq_false, if_false, hbal, if_pos hlt]
          constructor
          · intro h; cases h
          · intro h
            obtain ⟨-, b', hb', hob⟩ := h 0 t (by simp)
            rw [hbal] at hb'
            cases hb'
            simp only [Nat.add_zero] at hob
            omega
        · simp only [repayLoop, hid, ne_eq, not_true_eq_false, if_false, hbal, if_neg hlt]
          rw [ih (i + 1)]
          constructor
          · intro h j u hj
            cases j with
            | zero =>
              simp only [List.getElem?_cons_zero, Option.some.injEq] at hj
              subst hj
              exact ⟨by simpa using hid, b, hbal, by simpa using Nat.le_of_not_lt hlt⟩
            | succ n =>
              simp only [List.getElem?_cons_succ] at hj
              have := h n u hj
              rwa [show i + 1 + n = i + (n + 1) by omega] at this
          · intro h j u hj
            have := h (j + 1) u (by simpa using hj)
            rwa [show i + (j + 1) = i + 1 + j by omega] at this
    · simp only [repayLoop, hid, ne_eq, not_false_eq_true, if_true]
      constructor
      · intro h; cases h
      · intro h
        obtain ⟨hkey, -⟩ := h 0 t (by simp)
        simp only [Nat.add_zero] at hkey
        exact absurd hkey hid

/-- C3: `Repay::process` succeeds — and it is only then that lamports move
and the ledger account is closed — exactly when the arity check and every
one of the N per-entry checks pass, in which case the outcome is
precisely "borrower gains all of the ledger account's lamports, ledger
emptied and closed".  Since the outcome exists only in the success case,
any failing check returns an error with no account state changed. -/
theorem repay_all_or_nothing :
    ∀ (bl ll : Nat) (ledger : Bytes) (toks : List AccountData) (o : RepayOutcome),
      repayProcess bl ll ledger toks = .ok o ↔
        (ledger.length / 40 = toks.length ∧
         (∀ j t, toks[j]? = some t →
            readEntryId ledger j = t.key ∧
            ∃ b, get_token_amount? t.data = some b ∧ readEntryOb ledger j ≤ b) ∧
         o = ⟨bl + ll, 0, [], true⟩) := by
  intro bl ll ledger toks o
  by_cases harity : ledger.length / 40 = toks.length
  · cases hloop : repayLoop ledger 0 toks with
    | error e =>
      simp only [repayProcess, loanDataSize, harity, ne_eq, not_true_eq_false, if_false, hloop]
      constructor
      · intro h; cases h
      · rintro ⟨-, hall, -⟩
        have := (repayLoop_ok_iff ledger toks 0).mpr (by simpa using hall)
        rw [hloop] at this
        cases this
    | ok u =>
      obtain ⟨⟩ := u
      simp only [repayProcess, loanDataSize, harity, ne_eq, not_true_eq_false, if_false, hloop]
      have hall := (repayLoop_ok_iff ledger toks 0).mp hloop
      constructor
      · intro h
        cases h
        exact ⟨trivial, by simpa using hall, rfl⟩
      · rintro ⟨-, -, ho⟩
        rw [ho]
  · simp only [repayProcess, loanDataSize, ne_eq]
    rw [if_pos harity]
    constructor
    · intro h; cases h
    · rintro ⟨h, -⟩; exact absurd h harity

/-- Witness for `repay_all_or_nothing`: a one-entry ledger (key `keyA`,
obligation 5) against an account holding exactly 5 succeeds with the
borrower collecting the ledger's 3 lamports. -/
theorem repay_all_or_nothing_witness :
    repayProcess 7 3 (keyA ++ leBytes 8 5) [⟨keyA, 0, tokData 5⟩] = .ok ⟨10, 0, [], true⟩ :=
  (repay_all_or_nothing 7 3 (keyA ++ leBytes 8 5) [⟨keyA, 0, tokData 5⟩] ⟨10, 0, [], true⟩).mpr
    ⟨by decide, by
      intro j t hj
      cases j with
      | zero =>
        simp only [List.getElem?_cons_zero, Option.some.injEq] at hj
        subst hj
        exact ⟨by decide, 5, by decide, by decide⟩
      | succ n => simp at hj, rfl⟩

theorem repayLoop_first_failure (ledger : Bytes) :
    ∀ (i0 : Nat) (toks : List AccountData) (k : Nat) (t : AccountData),
      toks[i0]? = some t →
      (∀ j u, j < i0 → toks[j]? = some u →
        readEntryId ledger (k + j) = u.key ∧
        ∃ b, get_token_amount? u.data = some b ∧ readEntryOb ledger (k + j) ≤ b) →
      ((readEntryId ledger (k + i0) ≠ t.key →
         repayLoop ledger k toks = .error .outOfOrderOrWrongAccount) ∧
       (∀ b, readEntryId ledger (k + i0) = t.key → get_token_amount? t.data = some b →
         b < readEntryOb ledger (k + i0) →
         repayLoop ledger k toks = .error .insufficientRepayment)) := by
  intro i0
  induction i0 with
  | zero =>
    intro toks k t ht _
    cases toks with
    | nil => simp at ht
    | cons u ts =>
      simp only [List.getElem?_cons_zero, Option.some.injEq] at ht
      subst ht
      constructor
      · intro hne
        simp only [Nat.add_zero] at hne
        simp [repayLoop, hne]
      · intro b hid hb hlt
        simp only [Nat.add_zero] at hid hlt
        simp [repayLoop, hid, hb, hlt]
  | succ i0 ih =>
    intro toks k t ht hpre
    cases toks with
    | nil => simp at ht
    | cons u ts =>
      simp only [List.getElem?_cons_succ] at ht
      obtain ⟨hid0, b0, hb0, hob0⟩ := hpre 0 u (Nat.succ_pos i0) (by simp)
      simp only [Nat.add_zero] at hid0 hob0
      have hstep : repayLoop ledger k (u :: ts) = repayLoop ledger (k + 1) ts := by
        simp [repayLoop, hid0, hb0, Nat.not_lt.mpr hob0]
      have hpre' : ∀ j v, j < i0 → ts[j]? = some v →
          readEntryId ledger (k + 1 + j) = v.key ∧
          ∃ b, get_token_amount? v.data = some b ∧ readEntryOb ledger (k + 1 + j) ≤ b := by
        intro j v hj hv
        have := hpre (j + 1) v (by omega) (by simpa using hv)
        rwa [show k + (j + 1) = k + 1 + j by omega] at this
      have := ih ts (k + 1) t ht hpre'
      rw [show k + 1 + i0 = k + (i0 + 1) by omega] at this
      rw [hstep]
      exact this

/-- C4: in `Repay`, with every entry before position `i0` passing its
checks, the processor's loop — which visits indices in increasing order —
fails with `OutOfOrderOrWrongAccount` if ledger entry `i0`'s stored
32-byte key differs from the `i0`-th supplied asset account's key, and
with `InsufficientRepayment` if the key matches but that account's
current balance is below the recorded obligation; the later entries
(quantified arbitrarily) are never examined. -/
theorem repay_positional_checks :
    ∀ (ledger : Bytes) (toks : List AccountData) (i0 : Nat) (t : AccountData),
      toks[i0]? = some t →
      (∀ j u, j < i0 → toks[j]? = some u →
        readEntryId ledger j = u.key ∧
        ∃ b, get_token_amount? u.data = some b ∧ readEntryOb ledger j ≤ b) →
      ((readEntryId ledger i0 ≠ t.key →
         repayLoop ledger 0 toks = .error .outOfOrderOrWrongAccount) ∧
       (∀ b, readEntryId ledger i0 = t.key → get_token_amount? t.data = some b →
         b < readEntryOb ledger i0 →
         repayLoop ledger 0 toks = .error .insufficientRepayment)) := by
  intro ledger toks i0 t ht hpre
  have := repayLoop_first_failure ledger i0 toks 0 t ht (by simpa using hpre)
  simpa using this

/-- Witness for `repay_positional_checks`: a two-entry ledger whose second
obligation is 10 against a second account holding only 9 fails with
`InsufficientRepayment` (the first entry passes). -/
theorem repay_positional_checks_witness :
    repayLoop (keyA ++ leBytes 8 5 ++ (keyC ++ leBytes 8 10)) 0
      [⟨keyA, 0, tokData 5⟩, ⟨keyC, 0, tokData 9⟩] = .error .insufficientRepayment :=
  (repay_positional_checks (keyA ++ leBytes 8 5 ++ (keyC ++ leBytes 8 10))
    [⟨keyA, 0, tokData 5⟩, ⟨keyC, 0, tokData 9⟩] 1 ⟨keyC, 0, tokData 9⟩ (by decide)
    (by
      intro j u hj hu
      cases j with
      | zero =>
        simp only [List.getElem?_cons_zero, Option.some.injEq] at hu
        subst hu
        exact ⟨by decide, 5, by decide, by decide⟩
      | succ n => omega)).2 9 (by decide) (by decide) (by decide)

theorem serializeEntries_length (es : List LoanData)
    (hk : ∀ e ∈ es, e.protocol_token_account.length = 32) :
    (serializeEntries es).length = 40 * es.length := by
  induction es with
  | nil => rfl
  | cons e es ih =>
    have h0 := hk e (by simp)
    have hrest : ∀ e' ∈ es, e'.protocol_token_account.length = 32 :=
      fun e' he' => hk e' (by simp [he'])
    simp [serializeEntries, length_leBytes, ih hrest, h0]
    ring

theorem readEntry_zero (e : LoanData) (es : List LoanData)
    (hk : e.protocol_token_account.length = 32) (hob : e.balance < 2 ^ 64) :
    readEntryId (serializeEntries (e :: es)) 0 = e.protocol_token_account ∧
    readEntryOb (serializeEntries (e :: es)) 0 = e.balance := by
  constructor
  · simp only [readEntryId, serializeEntries, loanDataSize, Nat.mul_zero, List.drop_zero]
    rw [List.append_assoc, List.take_left' hk]
  · simp only [readEntryOb, serializeEntries, loanDataSize, Nat.mul_zero, Nat.zero_add]
    rw [List.append_assoc, List.drop_left' hk, List.take_left' (length_leBytes 8 e.balance),
      leDecode_leBytes]
    have : (256 : Nat) ^ 8 = 2 ^ 64 := by norm_num
    rw [this]
    exact Nat.mod_eq_of_lt hob

theorem readEntry_shift (e : LoanData) (es : List LoanData)
    (hk : e.protocol_token_account.length = 32) (i : Nat) :
    readEntryId (serializeEntries (e :: es)) (i + 1) = readEntryId (serializeEntries es) i ∧
    readEntryOb (serializeEntries (e :: es)) (i + 1) = readEntryOb (serializeEntries es) i := by
  have h40 : (e.protocol_token_account ++ leBytes 8 e.balance).length = 40 := by
    simp [hk, length_leBytes]
  constructor
  · simp only [readEntryId, serializeEntries, loanDataSize]
    rw [show 40 * (i + 1) = 40 + 40 * i by ring, ← List.drop_drop, List.drop_left' h40]
  · simp only [readEntryOb, serializeEntries, loanDataSize]
    rw [show 40 * (i + 1) + 32 = 40 + (40 * i + 32) by ring, ← List.drop_drop,
      List.drop_left' h40]

/-- C8: round-trip of the ledger codec.  Serialising the entries that
`Loan` records produces exactly `N` contiguous 40-byte records — entry
`i`'s 32-byte key at byte offset `i*40` followed by its obligation as a
little-endian `u64` at `i*40 + 32`, with no header or padding — and
`Repay`'s reads (`readEntryId`, `readEntryOb`, the embeddings of repay.rs
lines 35 and 42–46) recover from those offsets exactly the key and
obligation that `Loan` recorded. -/
theorem ledger_codec_roundtrip :
    ∀ (es : List LoanData),
      (∀ e ∈ es, e.protocol_token_account.length = 32) →
      (∀ e ∈ es, e.balance < 2 ^ 64) →
      (serializeEntries es).length = 40 * es.length ∧
      ∀ i e, es[i]? = some e →
        readEntryId (serializeEntries es) i = e.protocol_token_account ∧
        readEntryOb (serializeEntries es) i = e.balance := by
  intro es
  induction es with
  | nil =>
    intro _ _
    exact ⟨rfl, by intro i e hi; simp at hi⟩
  | cons e es ih =>
    intro hk hob
    have hk0 := hk e (by simp)
    have hob0 := hob e (by simp)
    have hkrest : ∀ e' ∈ es, e'.protocol_token_account.length = 32 :=
      fun e' he' => hk e' (by simp [he'])
    have hobrest : ∀ e' ∈ es, e'.balance < 2 ^ 64 :=
      fun e' he' => hob e' (by simp [he'])
    refine ⟨serializeEntries_length _ hk, ?_⟩
    intro i e' hi
    cases i with
    | zero =>
      simp only [List.getElem?_cons_zero, Option.some.injEq] at hi
      subst hi
      exact readEntry_zero e es hk0 hob0
    | succ n =>
      simp only [List.getElem?_cons_succ] at hi
      have hsh := readEntry_shift e es hk0 n
      have := (ih hkrest hobrest).2 n e' hi
      exact ⟨hsh.1.trans this.1, hsh.2.trans this.2⟩

/-- Witness for `ledger_codec_roundtrip`: the two-entry ledger of the
spec's concrete scenario round-trips — 80 bytes, keys and obligations
10003 and 5001 read back intact. -/
theorem ledger_codec_roundtrip_witness :
    (serializeEntries [⟨keyA, 10003⟩, ⟨keyC, 5001⟩]).length = 80 ∧
    readEntryId (serializeEntries [⟨keyA, 10003⟩, ⟨keyC, 5001⟩]) 1 = keyC ∧
    readEntryOb (serializeEntries [⟨keyA, 10003⟩, ⟨keyC, 5001⟩]) 1 = 5001 := by
  have h := ledger_codec_roundtrip [⟨keyA, 10003⟩, ⟨keyC, 5001⟩] (by decide) (by decide)
  obtain ⟨h1, h2⟩ := h
  have h3 := h2 1 ⟨keyC, 5001⟩ (by decide)
  exact ⟨h1, h3.1, h3.2⟩

theorem checkedMulU64_some {a b m : Nat} (h : checkedMulU64 a b = some m) :
    a * b < 2 ^ 64 ∧ m = a * b := by
  unfold checkedMulU64 at h
  split at h
  · cases h; exact ⟨by assumption, rfl⟩
  · cases h

theorem checkedAddU64_some {a b m : Nat} (h : checkedAddU64 a b = some m) :
    a + b < 2 ^ 64 ∧ m = a + b := by
  unfold checkedAddU64 at h
  split at h
  · cases h; exact ⟨by assumption, rfl⟩
  · cases h

theorem tokenTransfer_ok_shape (toks : List AccountData) (src dst : Pubkey) (amt : Nat)
    (t' : List AccountData) (h : tokenTransfer toks src dst amt = .ok t') :
    ∃ sb db, t' =
      (toks.map (fun t =>
        if t.key = src then { t with data := setTokenAmount t.data (sb - amt) } else t)).map
        (fun t =>
          if t.key = dst then { t with data := setTokenAmount t.data (db + amt) } else t) := by
  unfold tokenTransfer at h
  split at h
  · cases h
  · split at h
    · cases h
    · split at h
      · cases h
      · split at h
        · cases h
        · split at h
          · cases h
          · cases h
            exact ⟨_, _, rfl⟩

theorem map_key_of_data_update (toks : List AccountData) (K : Pubkey)
    (D : AccountData → Bytes) :
    ((toks.map (fun t => if t.key = K then { t with data := D t } else t)).map
      AccountData.key) = toks.map AccountData.key := by
  induction toks with
  | nil => rfl
  | cons t ts ih =>
    by_cases h : t.key = K <;> simp [h, ih]

theorem tokenTransfer_map_key (toks : List AccountData) (src dst : Pubkey) (amt : Nat)
    (t' : List AccountData) (h : tokenTransfer toks src dst amt = .ok t') :
    t'.map AccountData.key = toks.map AccountData.key := by
  obtain ⟨sb, db, rfl⟩ := tokenTransfer_ok_shape toks src dst amt t' h
  rw [map_key_of_data_update, map_key_of_data_update]

theorem tokenTransfer_preserves (toks : List AccountData) (src dst : Pubkey) (amt : Nat)
    (t' : List AccountData) (h : tokenTransfer toks src dst amt = .ok t')
    (m : Nat) (hm : ∀ x, toks[m]? = some x → x.key ≠ src ∧ x.key ≠ dst) :
    t'[m]? = toks[m]? := by
  obtain ⟨sb, db, rfl⟩ := tokenTransfer_ok_shape toks src dst amt t' h
  rw [List.getElem?_map, List.getElem?_map]
  cases hx : toks[m]? with
  | none => rfl
  | some x =>
    obtain ⟨h1, h2⟩ := hm x hx
    simp [h1, h2]

theorem loanStep_ok_shape (fee : Nat) (toks : List AccountData) (i a : Nat)
    (t' : List AccountData) (e : LoanData) (h : loanStep fee toks i a = .ok (t', e)) :
    ∃ p b bal, toks[2 * i]? = some p ∧ toks[2 * i + 1]? = some b ∧
      get_token_amount? p.data = some bal ∧
      a * fee < 2 ^ 64 ∧ bal + a * fee / 10000 < 2 ^ 64 ∧
      e = ⟨p.key, bal + a * fee / 10000⟩ ∧
      tokenTransfer toks p.key b.key a = .ok t' := by
  unfold loanStep at h
  split at h
  case h_2 => cases h
  case h_1 p b hp hb =>
    split at h
    · cases h
    · rename_i bal hbal
      split at h
      · cases h
      · rename_i mf hmf
        split at h
        · cases h
        · rename_i ob hob
          split at h
          · cases h
          · rename_i t'' htr
            cases h
            obtain ⟨hmul, rfl⟩ := checkedMulU64_some hmf
            obtain ⟨hadd, rfl⟩ := checkedAddU64_some hob
            exact ⟨p, b, bal, hp, hb, hbal, hmul, hadd, rfl, htr⟩

theorem nodup_keys_distinct (toks : List AccountData)
    (hnd : (toks.map AccountData.key).Nodup) (m n : Nat) (hmn : m ≠ n)
    (x y : AccountData) (hx : toks[m]? = some x) (hy : toks[n]? = some y) :
    x.key ≠ y.key := by
  intro he
  have h1 : (toks.map AccountData.key)[m]? = some x.key := by
    simp [List.getElem?_map, hx]
  have h2 : (toks.map AccountData.key)[n]? = some y.key := by
    simp [List.getElem?_map, hy]
  have hlt : m < (toks.map AccountData.key).length := by
    by_contra hge
    rw [List.getElem?_eq_none (by omega)] at h1
    cases h1
  exact hmn (List.getElem?_inj hlt hnd (by rw [h1, h2, he]))

theorem loanLoop_ok_characterization (fee : Nat) :
    ∀ (amounts : List Nat) (toks : List AccountData) (i : Nat)
      (t : List AccountData) (es : List LoanData),
      (toks.map AccountData.key).Nodup →
      loanLoop fee toks amounts i = .ok (t, es) →
      es.length = amounts.length ∧
      t.map AccountData.key = toks.map AccountData.key ∧
      ∀ j a, amounts[j]? = some a → ∃ p bal,
        toks[2 * (i + j)]? = some p ∧ get_token_amount? p.data = some bal ∧
        es[j]? = some ⟨p.key, bal + a * fee / 10000⟩ ∧
        a * fee < 2 ^ 64 ∧ bal + a * fee / 10000 < 2 ^ 64 := by
  intro amounts
  induction amounts with
  | nil =>
    intro toks i t es hnd h
    simp only [loanLoop] at h
    cases h
    exact ⟨rfl, rfl, by intro j a hj; simp at hj⟩
  | cons a rest ih =>
    intro toks i t es hnd h
    simp only [loanLoop] at h
    split at h
    · cases h
    · rename_i t' e hstep
      split at h
      · cases h
      · rename_i t2 es' hrest
        cases h
        obtain ⟨p, b, bal, hp, hb, hbal, hmul, hadd, he, htr⟩ :=
          loanStep_ok_shape fee toks i a t' e hstep
        have hkey' : t'.map AccountData.key = toks.map AccountData.key :=
          tokenTransfer_map_key toks p.key b.key a t' htr
        have hnd' : (t'.map AccountData.key).Nodup := by rw [hkey']; exact hnd
        obtain ⟨hlen, hkey2, hall⟩ := ih t' (i + 1) t es' hnd' hrest
        refine ⟨by simpa using hlen, by rw [hkey2, hkey'], ?_⟩
        intro j a' hj
        cases j with
        | zero =>
          simp only [List.getElem?_cons_zero, Option.some.injEq] at hj
          subst hj
          exact ⟨p, bal, by simpa using hp, hbal, by simp [he], hmul, hadd⟩
        | succ n =>
          simp only [List.getElem?_cons_succ] at hj
          obtain ⟨p', bal', hp', hbal', hes', hmul', hadd'⟩ := hall n a' hj
          have hpos : t'[2 * (i + 1 + n)]? = toks[2 * (i + 1 + n)]? := by
            apply tokenTransfer_preserves toks p.key b.key a t' htr
            intro x hx
            exact ⟨nodup_keys_distinct toks hnd _ _ (by omega) x p hx hp,
                   nodup_keys_distinct toks hnd _ _ (by omega) x b hx hb⟩
          rw [hpos, show 2 * (i + 1 + n) = 2 * (i + (n + 1)) by ring] at hp'
          exact ⟨p', bal', hp', hbal', by simpa using hes', hmul', hadd'⟩

/-- Extract the recorded ledger entries from a loop result. -/
def loanEntriesOf (r : Except Err (List AccountData × List LoanData)) : Option (List LoanData) :=
  match r with
  | .ok (_, es) => some es
  | .error _ => none

/-- The spec's concrete scenario: protocol pool accounts holding 10000 and
5000, paired with empty borrower-side accounts. -/
def c1Toks : List AccountData :=
  [⟨keyA, 0, tokData 10000⟩, ⟨keyB, 0, tokData 0⟩,
   ⟨keyC, 0, tokData 5000⟩, ⟨keyD, 0, tokData 0⟩]

/-- Final token-account state of the concrete scenario's loop. -/
def c1T : List AccountData := ((loanLoop 30 c1Toks [1000, 500] 0).toOption.getD ([], [])).1

/-- Recorded entries of the concrete scenario's loop. -/
def c1Es : List LoanData := ((loanLoop 30 c1Toks [1000, 500] 0).toOption.getD ([], [])).2

/-- C1: in the `Loan` transfer loop, (i) when the supplied token accounts
are pairwise-distinct (so no account aliases another), a successful run
records at entry `i` exactly
`obligation = pre-loan balance of the protocol-side account +
floor(amounts[i] * fee_bps / 10000)`, all intermediate `u64` checked
operations in range; (ii) whenever the loop reaches an index whose
multiplication `amount * fee` or addition `balance + fee_amount`
overflows 64 bits, it fails with `FeeOverflow` (the division by the
constant 10000 cannot fail); and (iii) with pre-loan balances 10000 and
5000, amounts `[1000, 500]` and `fee_bps = 30`, the recorded obligations
are 10003 and 5001. -/
theorem loan_obligation_formula :
    ∀ (fee : Nat) (toks : List AccountData) (amounts : List Nat)
      (t : List AccountData) (es : List LoanData),
      ((toks.map AccountData.key).Nodup →
        loanLoop fee toks amounts 0 = .ok (t, es) →
        es.length = amounts.length ∧
        ∀ j a, amounts[j]? = some a → ∃ p bal,
          toks[2 * j]? = some p ∧ get_token_amount? p.data = some bal ∧
          es[j]? = some ⟨p.key, bal + a * fee / 10000⟩ ∧
          a * fee < 2 ^ 64 ∧ bal + a * fee / 10000 < 2 ^ 64) ∧
      (∀ (a : Nat) (rest : List Nat) (i : Nat) (p b : AccountData) (bal : Nat),
        toks[2 * i]? = some p → toks[2 * i + 1]? = some b →
        get_token_amount? p.data = some bal →
        (2 ^ 64 ≤ a * fee ∨ (a * fee < 2 ^ 64 ∧ 2 ^ 64 ≤ bal + a * fee / 10000)) →
        loanLoop fee toks (a :: rest) i = .error .feeOverflow) ∧
      loanEntriesOf (loanLoop 30 c1Toks [1000, 500] 0) =
        some [⟨keyA, 10003⟩, ⟨keyC, 5001⟩] := by
  intro fee toks amounts t es
  refine ⟨?_, ?_, by decide⟩
  · intro hnd h
    obtain ⟨hlen, -, hall⟩ := loanLoop_ok_characterization fee amounts toks 0 t es hnd h
    exact ⟨hlen, by simpa using hall⟩
  · intro a rest i p b bal hp hb hbal hov
    have hstep : loanStep fee toks i a = .error .feeOverflow := by
      cases hov with
      | inl hmul =>
        have h1 : checkedMulU64 a fee = none := by
          unfold checkedMulU64; rw [if_neg (Nat.not_lt.mpr hmul)]
        simp only [loanStep, hp, hb, hbal, h1]
      | inr hadd =>
        have h1 : checkedMulU64 a fee = some (a * fee) := by
          unfold checkedMulU64; rw [if_pos hadd.1]
        have h2 : checkedAddU64 bal (a * fee / 10000) = none := by
          unfold checkedAddU64; rw [if_neg (Nat.not_lt.mpr hadd.2)]
        simp only [loanStep, hp, hb, hbal, h1, h2]
    simp [loanLoop, hstep]

/-- Witness for `loan_obligation_formula`: in the concrete scenario the
second entry records `5000 + floor(500*30/10000) = 5001` against `keyC`'s
account, and an amount of `2^60` at fee 30 overflows the 64-bit
multiplication and fails with `FeeOverflow`. -/
theorem loan_obligation_formula_witness :
    (∃ p bal, c1Toks[2 * 1]? = some p ∧ get_token_amount? p.data = some bal ∧
      c1Es[1]? = some ⟨p.key, bal + 500 * 30 / 10000⟩ ∧
      500 * 30 < 2 ^ 64 ∧ bal + 500 * 30 / 10000 < 2 ^ 64) ∧
    loanLoop 30 c1Toks [2 ^ 60] 0 = .error .feeOverflow :=
  ⟨((loan_obligation_formula 30 c1Toks [1000, 500] c1T c1Es).1 (by decide) rfl).2 1 500 rfl,
   (loan_obligation_formula 30 c1Toks [2 ^ 60] c1T c1Es).2.1 (2 ^ 60) [] 0
     ⟨keyA, 0, tokData 10000⟩ ⟨keyB, 0, tokData 0⟩ 10000 rfl rfl (by decide)
     (Or.inl (by norm_num))⟩
